import Mathlib

/-!
Verification of the `sculptor` module (`src/sculptor/sculptor.py`): a
schema-driven LLM extraction library.  We shallowly embed the data model
(field declarations, the JSON schema rendered for the LLM, Python dicts as
association lists), the operations (`normalize_type`, `Sculptor.add`,
`Sculptor._build_schema_for_llm`, `Sculptor._format_input_data`,
`Sculptor.sculpt`, `Sculptor.sculpt_batch`) and prove the spec's claims
about them.  The external LLM transport is modelled as an oracle value
(`Except String JValue`): the composite outcome of the chat-completion
call, extraction of the first choice's content and `json.loads`.
-/

namespace Sculptor

/-- A JSON-like dynamic value, the universe of Python values flowing through
the module (input records, parsed LLM extractions, enum literals). -/
inductive JValue where
  | str (s : String)
  | num (n : Int)
  | bool (b : Bool)
  | null
  | arr (elems : List JValue)
  | obj (fields : List (String × JValue))

/-- Python `repr` of a value, as used by `str()` on containers. -/
def pyRepr : JValue → String
  | .str s => "'" ++ s ++ "'"
  | .num n => toString n
  | .bool b => if b then "True" else "False"
  | .null => "None"
  | .arr xs => "[" ++ String.intercalate ", " (xs.attach.map (fun x => pyRepr x.1)) ++ "]"
  | .obj kvs => "\x7b" ++ String.intercalate ", "
      (kvs.attach.map (fun p => "'" ++ p.1.1 ++ "': " ++ pyRepr p.1.2)) ++ "\x7d"
termination_by v => sizeOf v
decreasing_by
  · have := List.sizeOf_lt_of_mem x.2
    simp only [JValue.arr.sizeOf_spec]
    omega
  · have h1 := List.sizeOf_lt_of_mem p.2
    have h2 : sizeOf p.1.2 < sizeOf p.1 := by
      obtain ⟨a, b⟩ := p.1
      simp only [Prod.mk.sizeOf_spec]
      omega
    simp only [JValue.obj.sizeOf_spec]
    omega

/-- Python `str()` coercion: strings unquoted, containers via `repr`. -/
def pyStr : JValue → String
  | .str s => s
  | v => pyRepr v

/-- A Python dict modelled as an association list (insertion-ordered, keys
unique for every dict the code actually builds). -/
abbrev Dict := List (String × JValue)

/-- `d.get(k)` / `d[k]`: value of the first entry with key `k`. -/
def pyLookup (l : List (String × α)) (k : String) : Option α :=
  (l.find? (fun p => p.1 == k)).map (·.2)

/-- `d[k] = v` on an insertion-ordered dict: overwrite in place if the key
is present, else append. -/
def dictInsert : List (String × α) → String → α → List (String × α)
  | [], k, v => [(k, v)]
  | p :: t, k, v => if p.1 == k then (k, v) :: t else p :: dictInsert t k v

/-- Build a dict by inserting entries left to right (the semantics of a
Python dict literal / comprehension over a pair sequence). -/
def dictOf (l : List (String × α)) : List (String × α) :=
  l.foldl (fun acc p => dictInsert acc p.1 p.2) []

/-! ## Type normalization (`normalize_type`, sculptor.py lines 102-126)

The Python function accepts a string or a native type; the native-type
branch lowercases the type's `__name__`, so both branches reduce to the
lowercased token, which we take as input. -/

/-- Python `str.lower()` (ASCII): character-wise lowercasing. -/
def pyLower (s : String) : String := ⟨s.data.map Char.toLower⟩

/-- Python `str.strip()`: drop leading and trailing whitespace. -/
def pyStrip (s : String) : String :=
  ⟨((s.data.dropWhile Char.isWhitespace).reverse.dropWhile Char.isWhitespace).reverse⟩

/-- The lowercased alias tokens `normalize_type` accepts. -/
def allowedAliasTokens : List String :=
  ["str", "string", "bool", "boolean", "int", "integer", "float", "number",
   "dict", "object", "list", "array", "enum", "anyof"]

/-- The `ValueError` message for an unsupported token (sculptor.py lines 123-126). -/
def unsupportedTypeMsg (tLower : String) : String :=
  "Unsupported or invalid type '" ++ tLower ++
    "'. Allowed: string, boolean, integer, number, object, array, enum, anyOf"

/-- `normalize_type` (sculptor.py lines 102-126): lowercase the token, map
it through the alias table, and reject anything else. -/
def normalize_type (t : String) : Except String String :=
  let tl := pyLower t
  if tl = "str" ∨ tl = "string" then .ok "string"
  else if tl = "bool" ∨ tl = "boolean" then .ok "boolean"
  else if tl = "int" ∨ tl = "integer" then .ok "integer"
  else if tl = "float" ∨ tl = "number" then .ok "number"
  else if tl = "dict" ∨ tl = "object" then .ok "object"
  else if tl = "list" ∨ tl = "array" then .ok "array"
  else if tl = "enum" ∨ tl = "anyof" then .ok tl
  else .error (unsupportedTypeMsg tl)

/-! ## Field declarations (`self.schema` entries)

A stored field meta is the dict built by `Sculptor.add` (keys `type`,
`description`, `items`, `enum`) or a verbatim nested `items` declaration,
which may additionally carry `properties` and `anyOf` keys read by
`build_subschema`.  We use dedicated spine types for the recursive
positions so that all schema functions are structurally recursive. -/

mutual

/-- One stored field declaration (a value of `self.schema`, or a verbatim
nested `items` dict). -/
inductive Meta where
  | mk : (ty : String) → (description : Option String) → (items : MetaItems) →
      (enumVals : Option (List JValue)) → (properties : MetaProps) →
      (anyOfL : Option (List JValue)) → Meta

/-- The `items` slot of a declaration: absent/None, a primitive kind tag,
or a verbatim nested declaration. -/
inductive MetaItems where
  | noi : MetaItems
  | prim : String → MetaItems
  | nested : Meta → MetaItems

/-- The `properties` slot: an ordered mapping of sub-field name to nested
declaration (absent is rendered identically to empty, as in
`node.get("properties", {})`). -/
inductive MetaProps where
  | pnil : MetaProps
  | pcons : String → Meta → MetaProps → MetaProps

end

/-- Names of the declared sub-fields of a `properties` mapping, in order. -/
def MetaProps.keys : MetaProps → List String
  | .pnil => []
  | .pcons n _ t => n :: t.keys

/-- The builder's stored schema: ordered mapping field name → declaration. -/
abbrev Schema := List (String × Meta)

/-- The argument accepted by `add` for `items`: a type-like token or a
verbatim dict declaration. -/
inductive ItemsArg where
  | tok : String → ItemsArg
  | decl : Meta → ItemsArg

/-- `Sculptor.add` (sculptor.py lines 82-153), as a state transformer on the
stored schema: on any `ValueError` the schema is returned unchanged (the
Python raises before the `self.schema[name] = ...` assignment); on success
the new field dict is stored under `name`. -/
def add (s : Schema) (name : String) (field_type : String) (description : String)
    (items : Option ItemsArg) (enum : Option (List JValue)) :
    Option String × Schema :=
  match normalize_type field_type with
  | .error e => (some e, s)
  | .ok field_type_str =>
    match (if field_type_str = "array" then
            match items with
            | none => .error "For 'array' type, you must provide 'items' in add(...)."
            | some (.decl d) => .ok (MetaItems.nested d)
            | some (.tok t) =>
              match normalize_type t with
              | .error e => .error e
              | .ok p => .ok (MetaItems.prim p)
           else .ok MetaItems.noi : Except String MetaItems) with
    | .error e => (some e, s)
    | .ok processed_items =>
      let stored := (none, dictInsert s name
        (Meta.mk field_type_str (some description) processed_items enum .pnil none))
      if field_type_str = "enum" then
        match enum with
        | none =>
          (some "For 'enum' type, you must provide a list of allowed values via `enum`.", s)
        | some [] =>
          (some "For 'enum' type, you must provide a list of allowed values via `enum`.", s)
        | some (_ :: _) => stored
      else stored

/-! ## Rendering the wire-level schema (`_build_schema_for_llm`, lines 171-244) -/

/-- A rendered schema node (`schema_def` in `build_subschema`): each field
records whether the corresponding dict key was set. -/
inductive SchemaDef where
  | mk : (description : Option String) → (ty : Option String) →
      (properties : Option (List (String × SchemaDef))) →
      (additionalProperties : Option Bool) →
      (required : Option (List String)) →
      (items : Option SchemaDef) →
      (enumVals : Option (List JValue)) →
      (anyOfL : Option (List JValue)) → SchemaDef

def SchemaDef.description : SchemaDef → Option String
  | .mk d _ _ _ _ _ _ _ => d

def SchemaDef.ty : SchemaDef → Option String
  | .mk _ t _ _ _ _ _ _ => t

def SchemaDef.properties : SchemaDef → Option (List (String × SchemaDef))
  | .mk _ _ p _ _ _ _ _ => p

def SchemaDef.additionalProperties : SchemaDef → Option Bool
  | .mk _ _ _ a _ _ _ _ => a

def SchemaDef.required : SchemaDef → Option (List String)
  | .mk _ _ _ _ r _ _ _ => r

def SchemaDef.items : SchemaDef → Option SchemaDef
  | .mk _ _ _ _ _ i _ _ => i

def SchemaDef.enumVals : SchemaDef → Option (List JValue)
  | .mk _ _ _ _ _ _ e _ => e

def SchemaDef.anyOfL : SchemaDef → Option (List JValue)
  | .mk _ _ _ _ _ _ _ a => a

/-- The sub-node rendered for the property `n` of an object node, if any. -/
def SchemaDef.getProp (d : SchemaDef) (n : String) : Option SchemaDef :=
  d.properties.bind (fun l => (l.find? (fun p => p.1 == n)).map (·.2))

/-- The top-level result of `_build_schema_for_llm` (lines 235-244): the
fixed name identifier, the strict flag, and the wrapping object schema. -/
structure TopSchema where
  name : String
  strict : Bool
  schema : SchemaDef

mutual

/-- `build_subschema` (lines 177-227).  The Python first deep-copies the
node (`copy.deepcopy(meta)`); the copy is value-identical to the original
(`deepcopyMeta_id` below), so we render the node directly. -/
def build_subschema : Meta → Except String SchemaDef
  | .mk ty dsc items ev props anyOfL =>
    if ty = "object" then
      (build_props_list props).map (fun nested_props =>
        SchemaDef.mk dsc (some "object") (some nested_props) (some false)
          (some (nested_props.map (·.1))) none none none)
    else if ty = "array" then
      match items with
      | .noi => .error "Array schema is missing 'items' definition."
      | .nested m =>
        (build_subschema m).map (fun si =>
          SchemaDef.mk dsc (some "array") none none none (some si) none none)
      | .prim p =>
        .ok (SchemaDef.mk dsc (some "array") none none none
          (some (SchemaDef.mk none (some p) none none none none none none)) none none)
    else if ty = "string" ∨ ty = "number" ∨ ty = "boolean" ∨ ty = "integer" then
      .ok (SchemaDef.mk dsc (some ty) none none none none none none)
    else if ty = "enum" then
      match ev with
      | none => .error "Missing 'enum' array for enum type."
      | some l => .ok (SchemaDef.mk dsc (some "string") none none none none (some l) none)
    else if ty = "anyof" then
      .ok (SchemaDef.mk dsc none none none none none none (some (anyOfL.getD [])))
    else .error ("Unsupported type '" ++ ty ++ "' in build_subschema.")

/-- The `for prop_name, prop_meta in props.items()` loop (lines 192-193):
render each declared sub-field in order, propagating the first failure. -/
def build_props_list : MetaProps → Except String (List (String × SchemaDef))
  | .pnil => .ok []
  | .pcons n m rest =>
    (build_subschema m).bind (fun d =>
      (build_props_list rest).map (fun ds => (n, d) :: ds))

end

/-- The top-level loop over `self.schema` (lines 230-232). -/
def build_top_props : List (String × Meta) → Except String (List (String × SchemaDef))
  | [] => .ok []
  | (n, m) :: rest =>
    (build_subschema m).bind (fun d =>
      (build_top_props rest).map (fun ds => (n, d) :: ds))

/-- `_build_schema_for_llm` (lines 171-244): render every declared field and
wrap the results in a single strict object schema named `extract_fields`. -/
def build_schema_for_llm (s : Schema) : Except String TopSchema :=
  (build_top_props s).map (fun tops =>
    ⟨"extract_fields", true,
      SchemaDef.mk none (some "object") (some tops) (some false)
        (some (tops.map (·.1))) none none none⟩)

/-! ## Deep copy (line 179) and the frame condition on the stored schema -/

mutual

/-- `copy.deepcopy` on a stored declaration: a structural copy. -/
def deepcopyMeta : Meta → Meta
  | .mk ty d it ev pr ao => .mk ty d (deepcopyItems it) ev (deepcopyProps pr) ao

def deepcopyItems : MetaItems → MetaItems
  | .noi => .noi
  | .prim s => .prim s
  | .nested m => .nested (deepcopyMeta m)

def deepcopyProps : MetaProps → MetaProps
  | .pnil => .pnil
  | .pcons n m t => .pcons n (deepcopyMeta m) (deepcopyProps t)

end

mutual

theorem deepcopyMeta_id : ∀ m : Meta, deepcopyMeta m = m
  | .mk ty d it ev pr ao => by
    simp only [deepcopyMeta, deepcopyItems_id it, deepcopyProps_id pr]

theorem deepcopyItems_id : ∀ it : MetaItems, deepcopyItems it = it
  | .noi => rfl
  | .prim _ => rfl
  | .nested m => by simp only [deepcopyItems, deepcopyMeta_id m]

theorem deepcopyProps_id : ∀ pr : MetaProps, deepcopyProps pr = pr
  | .pnil => rfl
  | .pcons n m t => by simp only [deepcopyProps, deepcopyMeta_id m, deepcopyProps_id t]

end

/-- The top-level rendering loop with the builder's stored schema threaded
through as explicit state: every iteration only reads the declarations
(through a deep copy), so the state is passed along unchanged. -/
def top_props_loop_st : List (String × Meta) → Schema →
    (Except String (List (String × SchemaDef))) × Schema
  | [], st => (.ok [], st)
  | (n, m) :: rest, st =>
    match build_subschema (deepcopyMeta m) with
    | .error e => (.error e, st)
    | .ok d =>
      match top_props_loop_st rest st with
      | (.error e, st2) => (.error e, st2)
      | (.ok ds, st2) => (.ok ((n, d) :: ds), st2)

/-- `_build_schema_for_llm` as a state transformer on the stored schema. -/
def build_schema_for_llm_st (s : Schema) : (Except String TopSchema) × Schema :=
  match top_props_loop_st s s with
  | (.error e, st) => (.error e, st)
  | (.ok tops, st) =>
    (.ok ⟨"extract_fields", true,
      SchemaDef.mk none (some "object") (some tops) (some false)
        (some (tops.map (·.1))) none none none⟩, st)

/-! ## Input formatting (`_format_input_data`, lines 246-258)

A configured template string is modelled pre-parsed into its literal and
named-placeholder segments (the shape `str.format` interprets); the empty
template — which Python treats as falsy, taking the keys branch — is the
empty segment list. -/

/-- One segment of a template string. -/
inductive Seg where
  | lit : String → Seg
  | field : String → Seg

/-- The error raised on a placeholder with no corresponding record key
(line 254): it carries the missing key's name. -/
inductive FormatError where
  | templateKeyError : String → FormatError

/-- `str(v) if v is not None else ''` (line 250): the string coercion
applied to each record value before substitution. -/
def strCoerce : JValue → String
  | .null => ""
  | v => pyStr v

/-- `safe_data` (line 250): string-coerce every value, rendering `None` as
the empty string. -/
def safeData (data : Dict) : List (String × String) :=
  data.map (fun p => (p.1, strCoerce p.2))

/-- `self.template.format(**safe_data)`: substitute each named placeholder
with the coerced value, failing on the first placeholder absent from the
record. -/
def formatTemplate : List Seg → List (String × String) → Except FormatError String
  | [], _ => .ok ""
  | .lit s :: rest, sd =>
    match formatTemplate rest sd with
    | .error e => .error e
    | .ok r => .ok (s ++ r)
  | .field k :: rest, sd =>
    match pyLookup sd k with
    | none => .error (.templateKeyError k)
    | some v =>
      match formatTemplate rest sd with
      | .error e => .error e
      | .ok r => .ok (v ++ r)

/-- One `key: value` line of the keys branch (line 258):
`f"{k}: {data.get(k, '')}"`. -/
def keyValueLine (data : Dict) (k : String) : String :=
  k ++ ": " ++ (match pyLookup data k with | some v => pyStr v | none => "")

/-- `_format_input_data` (lines 246-258): the template branch when a
non-empty template is configured, else one `key: value` line per configured
input key (falling back to the record's own keys when the configured list
is falsy, i.e. `None` or empty). -/
def formatInputData (template : List Seg) (input_keys : Option (List String))
    (data : Dict) : Except FormatError String :=
  if template.isEmpty = false then formatTemplate template (safeData data)
  else
    let keys_to_use : List String :=
      match input_keys with
      | some ks => if ks.isEmpty = false then ks else data.map (·.1)
      | none => data.map (·.1)
    .ok (String.intercalate "\n" (keys_to_use.map (keyValueLine data)))

/-! ## Single extraction (`Sculptor.sculpt`, lines 270-305)

The external call — transport, `resp.choices[0].message.content.strip()`
and `json.loads` — is modelled as an oracle `Except String JValue`: either
the parsed structured value or the message of the exception raised. -/

/-- The single-element-sequence unwrap (lines 286-287). -/
def unwrapSingle : JValue → JValue
  | .arr [x] => x
  | v => v

/-- `{k.strip(): v for k, v in extracted.items()}` (line 290). -/
def stripKeys (kvs : Dict) : Dict :=
  dictOf (kvs.map (fun p => (pyStrip p.1, p.2)))

/-- Lines 286-290: unwrap a one-element list, then strip whitespace from the
top-level keys; a non-dict value fails (`.items()` raises). -/
def postParse (v : JValue) : Except String Dict :=
  match unwrapSingle v with
  | .obj kvs => .ok (stripKeys kvs)
  | _ => .error "object has no attribute 'items'"

/-- Errors escaping `sculpt`: a schema rendering `ValueError` propagates
unwrapped (line 272 sits outside the `try`); every failure of the LLM
interaction is re-raised as the single wrapper
`RuntimeError(f"LLM API call failed: {e}")` (line 293), modelled as a
constructor carrying the original cause. -/
inductive SculptError where
  | schemaError : String → SculptError
  | extractionCallError : (cause : String) → SculptError

/-- The observable outcome of one `sculpt` call: the returned mapping (or
raised error) together with the emitted field-conflict warnings, each
warning listing the overlapping field names (line 302). -/
structure SculptOutput where
  result : Except SculptError Dict
  warnings : List (List String)

/-- `Sculptor.sculpt` (lines 270-305). -/
def sculpt (schema : Schema) (data : Dict) (merge_input : Bool)
    (callOutcome : Except String JValue) : SculptOutput :=
  match build_schema_for_llm schema with
  | .error e => ⟨.error (.schemaError e), []⟩
  | .ok _schema_for_llm =>
    match (match callOutcome with
           | .error e => .error e
           | .ok v => postParse v : Except String Dict) with
    | .error e => ⟨.error (.extractionCallError e), []⟩
    | .ok extracted =>
      if merge_input = false then ⟨.ok extracted, []⟩
      else
        let conflicts := (data.map (·.1)).filter (fun k => extracted.any (fun p => p.1 == k))
        ⟨.ok (dictOf (data ++ extracted)),
         if conflicts.isEmpty then [] else [conflicts]⟩

/-! ## Batch orchestration (`Sculptor.sculpt_batch`, lines 307-350)

The sequential branch is the literal accumulate loop.  The
`ThreadPoolExecutor.map` branch is modelled by its semantics: every task
index is computed by some worker (in an arbitrary completion order) into a
slot keyed by the original index, and the output is read back positionally. -/

/-- The sequential loop (lines 345-348): `results.append(...)` per item. -/
def seq_loop (f : Dict → SculptOutput) (l : List Dict) : List SculptOutput :=
  l.foldl (fun acc d => acc ++ [f d]) []

/-- The worker pool's slot buffer: each completed task index deposits its
result keyed by that index, in completion order. -/
def writeSlots (f : Dict → SculptOutput) (xs : List Dict) (completion : List Nat) :
    List (Nat × SculptOutput) :=
  completion.filterMap (fun i => xs[i]?.map (fun x => (i, f x)))

/-- Positional read-back of the slot buffer: slot `j` for each `j < n` in
order (`none` marks a task that never completed). -/
def readOut (slots : List (Nat × SculptOutput)) (n : Nat) : List (Option SculptOutput) :=
  (List.range n).map (fun j => ((slots.find? (fun p => p.1 == j)).map (·.2)))

/-- `Sculptor.sculpt_batch` (lines 307-350): sequential for
`n_workers <= 1`, else the bounded worker pool; `completion` is the order in
which the pool's workers happen to finish, `show_progress` only drives the
progress bar. -/
def sculpt_batch (schema : Schema) (oracle : Dict → Except String JValue)
    (data_list : List Dict) (n_workers : Nat) (_show_progress : Bool)
    (merge_input : Bool) (completion : List Nat) : List (Option SculptOutput) :=
  let sculpt_with_merge := fun d => sculpt schema d merge_input (oracle d)
  if n_workers > 1 then
    readOut (writeSlots sculpt_with_merge data_list completion) data_list.length
  else
    (seq_loop sculpt_with_merge data_list).map some

/-! ## Lemmas about the dict model -/

/-- Value of the last entry with key `k` — what a left-to-right sequence of
dict insertions leaves behind for `k`. -/
def lastOcc (l : List (String × α)) (k : String) : Option α :=
  (l.reverse.find? (fun p => p.1 == k)).map (·.2)

theorem omap_or (f : α → β) (a b : Option α) :
    (a.or b).map f = (a.map f).or (b.map f) := by
  cases a <;> rfl

@[simp] theorem pyLookup_nil (k : String) : pyLookup ([] : List (String × α)) k = none := rfl

theorem pyLookup_cons (p : String × α) (l : List (String × α)) (k : String) :
    pyLookup (p :: l) k = if p.1 = k then some p.2 else pyLookup l k := by
  by_cases h : p.1 = k <;> simp [pyLookup, List.find?_cons, h]

theorem pyLookup_dictInsert (l : List (String × α)) (k : String) (v : α) (j : String) :
    pyLookup (dictInsert l k v) j = if j = k then some v else pyLookup l j := by
  induction l with
  | nil =>
    rw [show dictInsert ([] : List (String × α)) k v = [(k, v)] from rfl, pyLookup_cons]
    by_cases h : j = k
    · rw [if_pos (show (k, v).1 = j from h.symm), if_pos h]
    · rw [if_neg (show ¬(k, v).1 = j from fun hh => h hh.symm), if_neg h, pyLookup_nil]
  | cons p t ih =>
    by_cases hp : p.1 = k
    · have hb : (p.1 == k) = true := beq_iff_eq.mpr hp
      have hstep : dictInsert (p :: t) k v = (k, v) :: t := by simp [dictInsert, hb]
      rw [hstep, pyLookup_cons, pyLookup_cons]
      by_cases hj : j = k
      · rw [if_pos (show (k, v).1 = j from hj.symm), if_pos hj]
      · rw [if_neg (show ¬(k, v).1 = j from fun hh => hj hh.symm), if_neg hj,
          if_neg (show ¬p.1 = j from fun hh => hj (by rw [← hh, hp]))]
    · have hb : (p.1 == k) = false := beq_eq_false_iff_ne.mpr hp
      have hstep : dictInsert (p :: t) k v = p :: dictInsert t k v := by
        simp [dictInsert, hb]
      rw [hstep, pyLookup_cons, pyLookup_cons, ih]
      by_cases hpj : p.1 = j
      · have hjk : ¬j = k := fun hh => hp (by rw [hpj, hh])
        rw [if_pos hpj, if_pos hpj, if_neg hjk]
      · rw [if_neg hpj, if_neg hpj]

@[simp] theorem lastOcc_nil (k : String) : lastOcc ([] : List (String × α)) k = none := rfl

theorem lastOcc_cons (p : String × α) (l : List (String × α)) (k : String) :
    lastOcc (p :: l) k = (lastOcc l k).or (if p.1 = k then some p.2 else none) := by
  by_cases h : p.1 = k <;>
    simp [lastOcc, List.find?_append, omap_or, List.find?_cons, h]

theorem lastOcc_append (a b : List (String × α)) (k : String) :
    lastOcc (a ++ b) k = (lastOcc b k).or (lastOcc a k) := by
  simp [lastOcc, List.reverse_append, List.find?_append, omap_or]

theorem pyLookup_foldl_dictInsert (l : List (String × α)) (acc : List (String × α))
    (j : String) :
    pyLookup (l.foldl (fun a p => dictInsert a p.1 p.2) acc) j =
      (lastOcc l j).or (pyLookup acc j) := by
  induction l generalizing acc with
  | nil => simp
  | cons p t ih =>
    rw [List.foldl_cons, ih, pyLookup_dictInsert, lastOcc_cons, Option.or_assoc]
    by_cases h : j = p.1
    · simp [h]
    · rw [if_neg h, if_neg (show ¬p.1 = j from fun hh => h hh.symm), Option.none_or]

theorem pyLookup_dictOf (l : List (String × α)) (j : String) :
    pyLookup (dictOf l) j = lastOcc l j := by
  simpa [dictOf] using pyLookup_foldl_dictInsert l [] j

theorem keys_dictInsert (l : List (String × α)) (k : String) (v : α) :
    (dictInsert l k v).map (·.1) =
      if l.any (fun p => p.1 == k) then l.map (·.1) else l.map (·.1) ++ [k] := by
  induction l with
  | nil => simp [dictInsert]
  | cons p t ih =>
    by_cases hp : p.1 = k
    · simp [dictInsert, hp]
    · have hb : (p.1 == k) = false := beq_eq_false_iff_ne.mpr hp
      have hstep : dictInsert (p :: t) k v = p :: dictInsert t k v := by
        simp [dictInsert, hb]
      rw [hstep, List.map_cons, ih, List.any_cons, hb, Bool.false_or, List.map_cons]
      by_cases ht : t.any (fun p => p.1 == k) <;> simp [ht]

theorem lastOcc_eq_none_of_not_mem (l : List (String × α)) (k : String)
    (h : k ∉ l.map (·.1)) : lastOcc l k = none := by
  have : l.reverse.find? (fun p => p.1 == k) = none := by
    rw [List.find?_eq_none]
    intro p hp
    simp only [beq_iff_eq]
    intro hk
    exact h (by simpa [hk] using List.mem_map_of_mem (·.1) (List.mem_reverse.mp hp))
  simp [lastOcc, this]

theorem pyLookup_eq_none_of_not_mem (l : List (String × α)) (k : String)
    (h : k ∉ l.map (·.1)) : pyLookup l k = none := by
  have : l.find? (fun p => p.1 == k) = none := by
    rw [List.find?_eq_none]
    intro p hp
    simp only [beq_iff_eq]
    intro hk
    exact h (by simpa [hk] using List.mem_map_of_mem (·.1) hp)
  simp [pyLookup, this]

theorem lastOcc_eq_pyLookup (l : List (String × α)) (k : String)
    (h : (l.map (·.1)).Nodup) : lastOcc l k = pyLookup l k := by
  induction l with
  | nil => simp
  | cons p t ih =>
    simp only [List.map_cons, List.nodup_cons] at h
    rw [lastOcc_cons, pyLookup_cons]
    by_cases hp : p.1 = k
    · rw [if_pos hp, if_pos hp, lastOcc_eq_none_of_not_mem t k (hp ▸ h.1)]
      rfl
    · rw [if_neg hp, if_neg hp, ih h.2]
      simp

theorem nodup_keys_dictInsert (l : List (String × α)) (k : String) (v : α)
    (h : (l.map (·.1)).Nodup) : ((dictInsert l k v).map (·.1)).Nodup := by
  rw [keys_dictInsert]
  by_cases ha : l.any (fun p => p.1 == k)
  · simpa [ha] using h
  · rw [if_neg ha]
    refine List.Nodup.append h (List.nodup_singleton k) ?_
    intro x hx hk
    simp only [List.mem_singleton] at hk
    subst hk
    obtain ⟨p, hp, hpk⟩ := List.mem_map.mp hx
    exact ha (List.any_eq_true.mpr ⟨p, hp, beq_iff_eq.mpr hpk⟩)

theorem nodup_keys_foldl_dictInsert (l : List (String × α)) (acc : List (String × α))
    (h : (acc.map (·.1)).Nodup) :
    (((l.foldl (fun a p => dictInsert a p.1 p.2) acc)).map (·.1)).Nodup := by
  induction l generalizing acc with
  | nil => simpa using h
  | cons p t ih => exact ih _ (nodup_keys_dictInsert _ _ _ h)

theorem dictOf_keys_nodup (l : List (String × α)) : ((dictOf l).map (·.1)).Nodup := by
  simpa [dictOf] using nodup_keys_foldl_dictInsert l [] (by simp)

theorem pyLookup_dictOf_append (a b : List (String × α)) (k : String)
    (ha : (a.map (·.1)).Nodup) (hb : (b.map (·.1)).Nodup) :
    pyLookup (dictOf (a ++ b)) k = (pyLookup b k).or (pyLookup a k) := by
  rw [pyLookup_dictOf, lastOcc_append, lastOcc_eq_pyLookup a k ha,
    lastOcc_eq_pyLookup b k hb]

theorem pyLookup_map_value (data : List (String × α)) (f : α → β) (k : String) :
    pyLookup (data.map (fun p => (p.1, f p.2))) k = (pyLookup data k).map f := by
  induction data with
  | nil => simp
  | cons p t ih =>
    rw [List.map_cons, pyLookup_cons, pyLookup_cons]
    by_cases h : p.1 = k <;> simp [h, ih]

theorem pyLookup_mem_of_nodup (data : List (String × α)) (p : String × α)
    (h : (data.map (·.1)).Nodup) (hp : p ∈ data) : pyLookup data p.1 = some p.2 := by
  induction data with
  | nil => cases hp
  | cons q t ih =>
    simp only [List.map_cons, List.nodup_cons] at h
    rcases List.mem_cons.mp hp with rfl | hmem
    · rw [pyLookup_cons, if_pos rfl]
    · rw [pyLookup_cons]
      have hne : q.1 ≠ p.1 := by
        intro he
        exact h.1 (he ▸ List.mem_map_of_mem (·.1) hmem)
      rw [if_neg hne]
      exact ih h.2 hmem

/-! ## Claim C5 — `normalize_type`'s alias table -/

/-- C5 counterexample: the claim says the token `anyof` maps to the
canonical tag `anyOf`; the code's `normalize_type` returns the lowercased
token as-is (`return t_lower` on line 121), so `anyof` maps to `"anyof"`,
not `"anyOf"`. -/
theorem normalize_type_anyof_counterexample :
    normalize_type "anyof" = .ok "anyof" ∧ normalize_type "anyof" ≠ .ok "anyOf" := by
  refine ⟨rfl, fun h => ?_⟩
  have : ("anyof" : String) = "anyOf" := by
    have h2 := h.symm.trans (rfl : normalize_type "anyof" = .ok "anyof")
    exact (Except.ok.injEq _ _).mp h2.symm
  simp at this

/-- C5 (amended): `normalizeKind` is case-insensitive (tokens with the same
lowercasing normalize identically) and alias-consistent — str/string →
string, bool/boolean → boolean, int/integer → integer, float/number →
number, dict/object → object, list/array → array, enum → enum, and anyof →
the lowercase tag `anyof` (left as-is, not canonicalized to `anyOf`) — and
every token whose lowercasing is outside the alias table fails with an
error naming the (lowercased) offending token and listing the allowed
values. -/
theorem normalize_type_alias_table :
    (∀ t₁ t₂ : String, pyLower t₁ = pyLower t₂ → normalize_type t₁ = normalize_type t₂) ∧
    (normalize_type "str" = .ok "string" ∧ normalize_type "string" = .ok "string" ∧
     normalize_type "STR" = .ok "string" ∧
     normalize_type "bool" = .ok "boolean" ∧ normalize_type "boolean" = .ok "boolean" ∧
     normalize_type "int" = .ok "integer" ∧ normalize_type "integer" = .ok "integer" ∧
     normalize_type "float" = .ok "number" ∧ normalize_type "number" = .ok "number" ∧
     normalize_type "dict" = .ok "object" ∧ normalize_type "object" = .ok "object" ∧
     normalize_type "list" = .ok "array" ∧ normalize_type "array" = .ok "array" ∧
     normalize_type "enum" = .ok "enum" ∧ normalize_type "anyof" = .ok "anyof") ∧
    (∀ t : String, pyLower t ∉ allowedAliasTokens →
      normalize_type t = .error (unsupportedTypeMsg (pyLower t))) := by
  refine ⟨?_, ?_, ?_⟩
  · intro t₁ t₂ h
    unfold normalize_type
    rw [h]
  · exact ⟨rfl, rfl, rfl, rfl, rfl, rfl, rfl, rfl, rfl, rfl, rfl, rfl, rfl, rfl, rfl⟩
  · intro t h
    simp only [allowedAliasTokens, List.mem_cons, List.mem_singleton, List.mem_nil_iff,
      or_false, not_or] at h
    obtain ⟨h1, h2, h3, h4, h5, h6, h7, h8, h9, h10, h11, h12, h13, h14⟩ := h
    unfold normalize_type
    rw [if_neg (not_or.mpr ⟨h1, h2⟩), if_neg (not_or.mpr ⟨h3, h4⟩),
      if_neg (not_or.mpr ⟨h5, h6⟩), if_neg (not_or.mpr ⟨h7, h8⟩),
      if_neg (not_or.mpr ⟨h9, h10⟩), if_neg (not_or.mpr ⟨h11, h12⟩),
      if_neg (not_or.mpr ⟨h13, h14⟩)]

/-- C5 witness: case-insensitivity at `"STR"` vs `"str"`, and the failure
rule at the unrecognized token `"timestamp"`. -/
theorem normalize_type_alias_table_witness :
    (pyLower "STR" = pyLower "str" ∧
      normalize_type "STR" = normalize_type "str") ∧
    (pyLower "timestamp" ∉ allowedAliasTokens ∧
      normalize_type "timestamp" = .error (unsupportedTypeMsg (pyLower "timestamp"))) :=
  ⟨⟨by decide, normalize_type_alias_table.1 "STR" "str" (by decide)⟩,
   ⟨by decide, normalize_type_alias_table.2.2 "timestamp" (by decide)⟩⟩

/-! ## Claim C6 — declaration-time failures of `add` -/

/-- C6: `add` with a kind normalizing to `array` and no `items` fails, and
with a kind normalizing to `enum` and absent or empty `enum` values fails;
in both cases the error is returned synchronously by `add` itself and the
stored schema is exactly unchanged (the Python raises before the
`self.schema[name] = ...` assignment). -/
theorem add_invalid_declaration (s : Schema) (name description : String) :
    (∀ t : String, normalize_type t = .ok "array" →
      ∀ ev : Option (List JValue),
        add s name t description none ev =
          (some "For 'array' type, you must provide 'items' in add(...).", s)) ∧
    (∀ t : String, normalize_type t = .ok "enum" →
      ∀ it : Option ItemsArg, ∀ ev : Option (List JValue),
        (ev = none ∨ ev = some []) →
        add s name t description it ev =
          (some "For 'enum' type, you must provide a list of allowed values via `enum`.", s)) := by
  constructor
  · intro t ht ev
    simp [add, ht]
  · intro t ht it ev hev
    rcases hev with rfl | rfl <;> simp [add, ht]

/-- C6 witness: `add` on an empty schema rejects `("nums", "array")` with no
items and `("color", "enum")` with an empty value list, leaving the schema
empty. -/
theorem add_invalid_declaration_witness :
    (normalize_type "array" = .ok "array" ∧
      add [] "nums" "array" "" none none =
        (some "For 'array' type, you must provide 'items' in add(...).", [])) ∧
    (normalize_type "enum" = .ok "enum" ∧ ((some [] : Option (List JValue)) = none ∨
        (some [] : Option (List JValue)) = some []) ∧
      add [] "color" "enum" "" none (some []) =
        (some "For 'enum' type, you must provide a list of allowed values via `enum`.", [])) :=
  ⟨⟨rfl, (add_invalid_declaration [] "nums" "").1 "array" rfl none⟩,
   ⟨rfl, Or.inr rfl,
    (add_invalid_declaration [] "color" "").2 "enum" rfl none (some []) (Or.inr rfl)⟩⟩

/-! ## Claim C1 — closed-world object rendering -/

theorem build_props_list_keys : ∀ (ps : MetaProps) (rs : List (String × SchemaDef)),
    build_props_list ps = .ok rs → rs.map (·.1) = ps.keys
  | .pnil, rs, h => by
    simp only [build_props_list, Except.ok.injEq] at h
    subst h
    rfl
  | .pcons n m rest, rs, h => by
    simp only [build_props_list] at h
    cases hm : build_subschema m with
    | error e => simp [hm, Except.bind] at h
    | ok d =>
      cases hr : build_props_list rest with
      | error e => simp [hm, hr, Except.bind, Except.map] at h
      | ok ds =>
        simp only [hm, hr, Except.bind, Except.map, Except.ok.injEq] at h
        subst h
        simp [MetaProps.keys, build_props_list_keys rest ds hr]

theorem build_top_props_keys (s : List (String × Meta)) (tops : List (String × SchemaDef))
    (h : build_top_props s = .ok tops) : tops.map (·.1) = s.map (·.1) := by
  induction s generalizing tops with
  | nil =>
    simp only [build_top_props, Except.ok.injEq] at h
    subst h
    rfl
  | cons p t ih =>
    obtain ⟨n, m⟩ := p
    simp only [build_top_props] at h
    cases hm : build_subschema m with
    | error e => simp [hm, Except.bind] at h
    | ok d =>
      cases hr : build_top_props t with
      | error e => simp [hm, hr, Except.bind, Except.map] at h
      | ok ds =>
        simp only [hm, hr, Except.bind, Except.map, Except.ok.injEq] at h
        subst h
        simp [ih ds hr]

/-- C1 counterexample: the claim's concrete scenario — declare via `add`
an object field `"a"` (whose intended sub-field `"x"` cannot be expressed:
`add` has no parameter for sub-properties and stores none) and render —
yields `required = []` for the `"a"` node, not `required = ["x"]`. -/
theorem object_field_required_counterexample :
    ((build_schema_for_llm ((add [] "a" "object" "" none none).2)).toOption.bind
        (fun t => (t.schema.getProp "a").map SchemaDef.required)) = some (some []) ∧
      (some [] : Option (List String)) ≠ some ["x"] := by
  constructor
  · rfl
  · decide

/-- C1 (amended): `build_subschema` renders every object node closed-world —
`properties` are the recursively rendered sub-fields of the node's stored
properties mapping, `required` is exactly the list of those sub-field
names, and `additionalProperties` is `false` — and the top-level result
wraps all declared fields as a single object schema with `required` = every
declared top-level field name, `additionalProperties = false`, the fixed
name `extract_fields` and `strict = true`.  However, `add` itself stores no
sub-properties for an object field (it has no parameter for them), so an
object field declared via `add` renders with `required = []`: declaring
`"a"` as an object and rendering yields `required = []` and
`additionalProperties = false` for the `"a"` node. -/
theorem build_schema_closed_world :
    (∀ (dsc : Option String) (it : MetaItems) (ev ao : Option (List JValue))
        (ps : MetaProps) (rs : List (String × SchemaDef)),
      build_props_list ps = .ok rs →
        build_subschema (.mk "object" dsc it ev ps ao) =
          .ok (SchemaDef.mk dsc (some "object") (some rs) (some false)
            (some ps.keys) none none none)) ∧
    (∀ (s : Schema) (tops : List (String × SchemaDef)),
      build_top_props s = .ok tops →
        build_schema_for_llm s =
          .ok ⟨"extract_fields", true,
            SchemaDef.mk none (some "object") (some tops) (some false)
              (some (s.map (·.1))) none none none⟩) ∧
    build_schema_for_llm ((add [] "a" "object" "" none none).2) =
      .ok ⟨"extract_fields", true,
        SchemaDef.mk none (some "object")
          (some [("a", SchemaDef.mk (some "") (some "object") (some []) (some false)
            (some []) none none none)])
          (some false) (some ["a"]) none none none⟩ := by
  refine ⟨?_, ?_, rfl⟩
  · intro dsc it ev ao ps rs h
    rw [← build_props_list_keys ps rs h]
    unfold build_subschema
    rw [h]
    rfl
  · intro s tops h
    rw [← build_top_props_keys s tops h]
    unfold build_schema_for_llm
    rw [h]
    rfl

/-- C1 witness: a properties mapping carrying one sub-field `"x"` of kind
string renders to an object node with `required = ["x"]` and
`additionalProperties = false`; the top-level wrapper for a one-field
schema carries `required` = that field's name. -/
theorem build_schema_closed_world_witness :
    (build_props_list (.pcons "x" (Meta.mk "string" (some "") .noi none .pnil none) .pnil) =
      .ok [("x", SchemaDef.mk (some "") (some "string") none none none none none none)] ∧
    build_subschema (.mk "object" (some "") .noi none
        (.pcons "x" (Meta.mk "string" (some "") .noi none .pnil none) .pnil) none) =
      .ok (SchemaDef.mk (some "") (some "object")
        (some [("x", SchemaDef.mk (some "") (some "string") none none none none none none)])
        (some false) (some ["x"]) none none none)) ∧
    (build_top_props [("a", Meta.mk "string" (some "") .noi none .pnil none)] =
      .ok [("a", SchemaDef.mk (some "") (some "string") none none none none none none)] ∧
    build_schema_for_llm [("a", Meta.mk "string" (some "") .noi none .pnil none)] =
      .ok ⟨"extract_fields", true,
        SchemaDef.mk none (some "object")
          (some [("a", SchemaDef.mk (some "") (some "string") none none none none none none)])
          (some false) (some ["a"]) none none none⟩) :=
  ⟨⟨rfl, build_schema_closed_world.1 (some "") .noi none none
      (.pcons "x" (Meta.mk "string" (some "") .noi none .pnil none) .pnil) _ rfl⟩,
   ⟨rfl, build_schema_closed_world.2.1 [("a", Meta.mk "string" (some "") .noi none .pnil none)]
      _ rfl⟩⟩

/-! ## Claim C8 — template substitution -/

/-- C8: with a configured (non-empty) template, `_format_input_data`
substitutes each named placeholder with the string-coerced record value
(`null` rendering as the empty string, per `strCoerce`), and a placeholder
with no corresponding key in the record fails with a `templateKeyError`
naming the missing key. -/
theorem format_template_substitution (a k : String) (ik : Option (List String))
    (data : Dict) :
    (∀ v : JValue, pyLookup data k = some v →
      formatInputData [.lit a, .field k] ik data = .ok (a ++ strCoerce v)) ∧
    (pyLookup data k = none →
      formatInputData [.lit a, .field k] ik data = .error (.templateKeyError k)) := by
  have hsd : pyLookup (safeData data) k = (pyLookup data k).map strCoerce :=
    pyLookup_map_value data strCoerce k
  constructor
  · intro v hv
    simp [formatInputData, formatTemplate, hsd, hv]
  · intro hv
    simp [formatInputData, formatTemplate, hsd, hv]

/-- C8 witness: template `"Name: {name}"` with record `{"name": "Bob"}`
renders `"Name: Bob"`; template `"Name: {missing}"` with the same record
fails naming `"missing"`. -/
theorem format_template_substitution_witness :
    (pyLookup [("name", JValue.str "Bob")] "name" = some (.str "Bob") ∧
      formatInputData [.lit "Name: ", .field "name"] none [("name", .str "Bob")] =
        .ok "Name: Bob") ∧
    (pyLookup [("name", JValue.str "Bob")] "missing" = none ∧
      formatInputData [.lit "Name: ", .field "missing"] none [("name", .str "Bob")] =
        .error (.templateKeyError "missing")) :=
  ⟨⟨rfl, (format_template_substitution "Name: " "name" none
      [("name", .str "Bob")]).1 (.str "Bob") rfl⟩,
   ⟨rfl, (format_template_substitution "Name: " "missing" none
      [("name", .str "Bob")]).2 rfl⟩⟩

/-! ## Claim C10 — empty configured input keys -/

/-- C10: without a configured template, an empty configured `input_keys`
list is falsy in `self.input_keys if self.input_keys else data.keys()`, so
`_format_input_data` behaves exactly as with no configured keys: one
`key: value` line for every key present in the record, in the record's own
order. -/
theorem format_empty_input_keys (data : Dict) (h : (data.map (·.1)).Nodup) :
    formatInputData [] (some []) data = formatInputData [] none data ∧
    formatInputData [] (some []) data =
      .ok (String.intercalate "\n" (data.map (fun p => p.1 ++ ": " ++ pyStr p.2))) := by
  constructor
  · rfl
  · have hlines : (data.map (·.1)).map (keyValueLine data) =
        data.map (fun p => p.1 ++ ": " ++ pyStr p.2) := by
      rw [List.map_map]
      refine List.map_congr_left ?_
      intro p hp
      simp [keyValueLine, pyLookup_mem_of_nodup data p h hp]
    simp [formatInputData, hlines]

/-- C10 witness: a two-key record renders the same two `key: value` lines
whether `input_keys` is `[]` or not configured at all. -/
theorem format_empty_input_keys_witness :
    (([("name", JValue.str "Bob"), ("city", JValue.str "NY")].map
        (fun p : String × JValue => p.1)).Nodup ∧
      formatInputData [] (some []) [("name", .str "Bob"), ("city", .str "NY")] =
        formatInputData [] none [("name", .str "Bob"), ("city", .str "NY")]) ∧
    formatInputData [] (some []) [("name", .str "Bob"), ("city", .str "NY")] =
      .ok "name: Bob\ncity: NY" := by
  have h := format_empty_input_keys [("name", .str "Bob"), ("city", .str "NY")] (by decide)
  exact ⟨⟨by decide, h.1⟩, by rw [h.2]; rfl⟩

/-! ## Claim C7 — single-element unwrap and key stripping -/

/-- C7: after parsing, a single-element sequence is unwrapped to its sole
element — an LLM response of `[{...}]` is processed identically to `{...}`,
both through `postParse` and through the whole of `sculpt` — and
leading/trailing whitespace is stripped from every top-level key of the
parsed result before any merge; concretely, `[{"x": 1}]` parses to exactly
`{"x": 1}`. -/
theorem single_element_unwrap_and_strip :
    (∀ kvs : Dict, postParse (.arr [.obj kvs]) = postParse (.obj kvs)) ∧
    (∀ (schema : Schema) (data : Dict) (mi : Bool) (kvs : Dict),
      sculpt schema data mi (.ok (.arr [.obj kvs])) =
        sculpt schema data mi (.ok (.obj kvs))) ∧
    (∀ (k : String) (v : JValue), postParse (.obj [(k, v)]) = .ok [(pyStrip k, v)]) ∧
    postParse (.arr [.obj [("x", .num 1)]]) = .ok [("x", .num 1)] :=
  ⟨fun _ => rfl, fun _ _ _ _ => rfl, fun _ _ => rfl, rfl⟩

/-! ## Claim C4 — wrapping of LLM-interaction failures -/

/-- C4: once the schema has rendered, every failure of the LLM interaction —
a transport/parse failure (an erroring call outcome) as well as a failure
of the unwrap/key-strip post-processing — is returned as the single wrapper
`extractionCallError` carrying the original cause, with no partial result
and no warnings. -/
theorem llm_failure_wrapped (schema : Schema) (data : Dict) (mi : Bool)
    (ts : TopSchema) (hb : build_schema_for_llm schema = .ok ts) :
    (∀ e : String, sculpt schema data mi (.error e) =
      ⟨.error (.extractionCallError e), []⟩) ∧
    (∀ (v : JValue) (e : String), postParse v = .error e →
      sculpt schema data mi (.ok v) = ⟨.error (.extractionCallError e), []⟩) := by
  constructor
  · intro e
    simp [sculpt, hb]
  · intro v e hv
    simp [sculpt, hb, hv]

/-- C4 witness: with the empty schema, a transport error `"boom"` and a
non-dict parse result (the number `3`, on which `.items()` fails) each
surface as an `extractionCallError` carrying the cause. -/
theorem llm_failure_wrapped_witness :
    (build_schema_for_llm [] = .ok ⟨"extract_fields", true,
      SchemaDef.mk none (some "object") (some []) (some false) (some []) none none none⟩) ∧
    sculpt [] [] true (.error "boom") =
      ⟨.error (.extractionCallError "boom"), []⟩ ∧
    (postParse (.num 3) = .error "object has no attribute 'items'" ∧
      sculpt [] [] true (.ok (.num 3)) =
        ⟨.error (.extractionCallError "object has no attribute 'items'"), []⟩) :=
  ⟨rfl,
   (llm_failure_wrapped [] [] true _ rfl).1 "boom",
   ⟨rfl, (llm_failure_wrapped [] [] true _ rfl).2 (.num 3)
      "object has no attribute 'items'" rfl⟩⟩

/-! ## Claim C3 — merge with extraction precedence -/

theorem any_key_iff (E : Dict) (k : String) :
    (E.any (fun p => p.1 == k)) = true ↔ k ∈ E.map (·.1) := by
  simp [List.any_eq_true, List.mem_map, beq_iff_eq]

theorem postParse_keys_nodup (v : JValue) (E : Dict) (h : postParse v = .ok E) :
    (E.map (·.1)).Nodup := by
  unfold postParse at h
  split at h
  · simp only [Except.ok.injEq] at h
    subst h
    exact dictOf_keys_nodup _
  · exact Except.noConfusion h

/-- C3: when the call succeeds and parses to the extraction `E`, `sculpt`
with `merge_input = true` returns the union of input and extraction in
which every key present in both takes `E`'s value and every input key
absent from `E` passes through unchanged; a (single, non-fatal) warning
listing exactly the overlapping field names is emitted iff the key sets
overlap, and no error is raised; with `merge_input = false` the parsed
extraction is returned as-is. -/
theorem merge_semantics (schema : Schema) (data E : Dict) (v : JValue) (ts : TopSchema)
    (hb : build_schema_for_llm schema = .ok ts)
    (hp : postParse v = .ok E)
    (hd : (data.map (·.1)).Nodup) :
    (∃ M, (sculpt schema data true (.ok v)).result = .ok M ∧
      (∀ k ev, pyLookup E k = some ev → pyLookup M k = some ev) ∧
      (∀ k, pyLookup E k = none → pyLookup M k = pyLookup data k)) ∧
    ((sculpt schema data true (.ok v)).warnings = [] ↔
      ∀ k, ¬(k ∈ data.map (·.1) ∧ k ∈ E.map (·.1))) ∧
    (∀ w ∈ (sculpt schema data true (.ok v)).warnings,
      ∀ k, k ∈ w ↔ (k ∈ data.map (·.1) ∧ k ∈ E.map (·.1))) ∧
    (sculpt schema data false (.ok v)).result = .ok E := by
  have hE : (E.map (·.1)).Nodup := postParse_keys_nodup v E hp
  have hM : ∀ k, pyLookup (dictOf (data ++ E)) k = (pyLookup E k).or (pyLookup data k) :=
    fun k => pyLookup_dictOf_append data E k hd hE
  have hout : sculpt schema data true (.ok v) =
      ⟨.ok (dictOf (data ++ E)),
       if ((data.map (·.1)).filter (fun k => E.any (fun p => p.1 == k))).isEmpty then []
       else [(data.map (·.1)).filter (fun k => E.any (fun p => p.1 == k))]⟩ := by
    simp [sculpt, hb, hp]
  have hres : (sculpt schema data true (.ok v)).result = .ok (dictOf (data ++ E)) := by
    rw [hout]
  have hwarn : (sculpt schema data true (.ok v)).warnings =
      (if ((data.map (·.1)).filter (fun k => E.any (fun p => p.1 == k))).isEmpty then []
       else [(data.map (·.1)).filter (fun k => E.any (fun p => p.1 == k))]) := by
    rw [hout]
  have hconf_iff :
      (data.map (·.1)).filter (fun k => E.any (fun p => p.1 == k)) = [] ↔
        ∀ k, ¬(k ∈ data.map (·.1) ∧ k ∈ E.map (·.1)) := by
    rw [List.filter_eq_nil_iff]
    constructor
    · rintro hall k ⟨hkd, hkE⟩
      exact absurd ((any_key_iff E k).mpr hkE) (by simpa using hall k hkd)
    · intro hall a ha hA
      exact hall a ⟨ha, (any_key_iff E a).mp hA⟩
  refine ⟨⟨dictOf (data ++ E), hres, ?_, ?_⟩, ?_, ?_, ?_⟩
  · intro k ev h
    rw [hM k, h]
    rfl
  · intro k h
    rw [hM k, h, Option.none_or]
  · rw [hwarn]
    by_cases hc : ((data.map (·.1)).filter (fun k => E.any (fun p => p.1 == k))).isEmpty
    · rw [if_pos hc]
      exact iff_of_true rfl (hconf_iff.mp (List.isEmpty_iff.mp hc))
    · rw [if_neg hc]
      exact iff_of_false (by simp)
        (fun hall => hc (List.isEmpty_iff.mpr (hconf_iff.mpr hall)))
  · rw [hwarn]
    intro w hw k
    by_cases hc : ((data.map (·.1)).filter (fun k => E.any (fun p => p.1 == k))).isEmpty
    · rw [if_pos hc] at hw
      exact absurd hw (by simp)
    · rw [if_neg hc, List.mem_singleton] at hw
      subst hw
      rw [List.mem_filter]
      constructor
      · rintro ⟨h1, h2⟩
        exact ⟨h1, (any_key_iff E k).mp h2⟩
      · rintro ⟨h1, h2⟩
        exact ⟨h1, (any_key_iff E k).mpr h2⟩
  · simp [sculpt, hb, hp]

/-- C3 witness: with input `{"name": "Bob"}` and extraction
`{"email": "a@b.com"}` the merge passes `name` through, adds `email`, and
emits no warning; with extraction `{"name": "Robert"}` the merged `name` is
`"Robert"` and a warning listing `["name"]` is emitted. -/
theorem merge_semantics_witness :
    (build_schema_for_llm [] = .ok ⟨"extract_fields", true,
        SchemaDef.mk none (some "object") (some []) (some false) (some []) none none none⟩ ∧
      postParse (.obj [("email", .str "a@b.com")]) = .ok [("email", .str "a@b.com")] ∧
      ([("name", JValue.str "Bob")].map (fun p : String × JValue => p.1)).Nodup) ∧
    (∃ M, (sculpt [] [("name", .str "Bob")] true
        (.ok (.obj [("email", .str "a@b.com")]))).result = .ok M ∧
      pyLookup M "name" = some (.str "Bob") ∧ pyLookup M "email" = some (.str "a@b.com")) ∧
    (sculpt [] [("name", .str "Bob")] true
        (.ok (.obj [("email", .str "a@b.com")]))).warnings = [] ∧
    (∃ M, (sculpt [] [("name", .str "Bob")] true
        (.ok (.obj [("name", .str "Robert")]))).result = .ok M ∧
      pyLookup M "name" = some (.str "Robert")) ∧
    (sculpt [] [("name", .str "Bob")] true
        (.ok (.obj [("name", .str "Robert")]))).warnings = [["name"]] := by
  obtain ⟨⟨M1, hM1, hlook1, hpass1⟩, -, -, -⟩ :=
    merge_semantics [] [("name", .str "Bob")] [("email", .str "a@b.com")]
      (.obj [("email", .str "a@b.com")]) _ rfl rfl (by decide)
  obtain ⟨⟨M2, hM2, hlook2, -⟩, -, -, -⟩ :=
    merge_semantics [] [("name", .str "Bob")] [("name", .str "Robert")]
      (.obj [("name", .str "Robert")]) _ rfl rfl (by decide)
  exact ⟨⟨rfl, rfl, by decide⟩,
    ⟨M1, hM1, hpass1 "name" rfl, hlook1 "email" (.str "a@b.com") rfl⟩, rfl,
    ⟨M2, hM2, hlook2 "name" (.str "Robert") rfl⟩, rfl⟩

/-! ## Claim C9 — rendering never mutates the declared schema -/

theorem top_props_loop_st_spec (l : List (String × Meta)) (st : Schema) :
    top_props_loop_st l st = (build_top_props l, st) := by
  induction l with
  | nil => rfl
  | cons p t ih =>
    obtain ⟨n, m⟩ := p
    simp only [top_props_loop_st, build_top_props, deepcopyMeta_id, ih]
    cases build_subschema m with
    | error e => simp [Except.bind]
    | ok d =>
      cases build_top_props t with
      | error e => simp [Except.bind, Except.map]
      | ok ds => simp [Except.bind, Except.map]

/-- C9: rendering operates on a deep copy of each stored declaration — the
copy is value-identical, so copying loses nothing — and the state-threaded
`_build_schema_for_llm` leaves the builder's stored field mapping exactly
unchanged (every field name and declaration is identical before and after
the call, whether the render succeeds or fails) while computing the same
result as the plain rendering function used by each `sculpt` call. -/
theorem rendering_preserves_schema :
    (∀ m : Meta, deepcopyMeta m = m) ∧
    (∀ s : Schema, (build_schema_for_llm_st s).2 = s) ∧
    (∀ s : Schema, (build_schema_for_llm_st s).1 = build_schema_for_llm s) := by
  refine ⟨deepcopyMeta_id, ?_, ?_⟩
  · intro s
    unfold build_schema_for_llm_st
    rw [top_props_loop_st_spec]
    cases build_top_props s <;> rfl
  · intro s
    unfold build_schema_for_llm_st build_schema_for_llm
    rw [top_props_loop_st_spec]
    cases build_top_props s <;> rfl

/-! ## Claim C2 — batch orchestration: order-preserving fan-out -/

theorem seq_loop_eq_map (f : Dict → SculptOutput) (l : List Dict) :
    seq_loop f l = l.map f := by
  have hgen : ∀ (l : List Dict) (acc : List SculptOutput),
      l.foldl (fun acc d => acc ++ [f d]) acc = acc ++ l.map f := by
    intro l
    induction l with
    | nil => intro acc; simp
    | cons d t ih => intro acc; simp [List.foldl_cons, ih]
  simpa [seq_loop] using hgen l []

theorem find_writeSlots (f : Dict → SculptOutput) (xs : List Dict)
    (completion : List Nat) (j : Nat) (hj : j < xs.length) (hmem : j ∈ completion) :
    (writeSlots f xs completion).find? (fun p => p.1 == j) =
      xs[j]?.map (fun x => (j, f x)) := by
  induction completion with
  | nil => cases hmem
  | cons i rest ih =>
    by_cases hij : i = j
    · subst hij
      rw [writeSlots, List.filterMap_cons]
      rw [List.getElem?_eq_getElem hj]
      simp [List.find?_cons]
    · rw [writeSlots, List.filterMap_cons]
      have hmem' : j ∈ rest := by
        rcases List.mem_cons.mp hmem with rfl | hr
        · exact absurd rfl hij
        · exact hr
      cases hx : xs[i]? with
      | none => exact ih hmem'
      | some x =>
        simp only [Option.map_some']
        rw [List.find?_cons]
        have : ((i, f x).1 == j) = false := by
          simp [hij]
        rw [this]
        exact ih hmem'

theorem readOut_writeSlots_eq_map (f : Dict → SculptOutput) (xs : List Dict)
    (completion : List Nat) (hcov : ∀ j, j < xs.length → j ∈ completion) :
    readOut (writeSlots f xs completion) xs.length = (xs.map f).map some := by
  apply List.ext_getElem
  · simp [readOut]
  · intro j h1 h2
    have hj : j < xs.length := by simpa [readOut] using h1
    simp only [readOut, List.getElem_map, List.getElem_range]
    rw [find_writeSlots f xs completion j hj (hcov j hj)]
    rw [List.getElem?_eq_getElem hj]
    rfl

/-- C2: for every record list and every worker count, `sculpt_batch` yields
exactly one result per input record, positionally: whenever the pool's
completion order is some permutation of the task indices, the output equals
the sequential per-record `sculpt` results in the original input order —
the same list whether `n_workers <= 1` (sequential loop) or `n_workers > 1`
(worker pool), independent of the completion order. -/
theorem batch_order_preserving (schema : Schema) (oracle : Dict → Except String JValue)
    (data_list : List Dict) (n_workers : Nat) (sp mi : Bool) (completion : List Nat)
    (hc : completion.Perm (List.range data_list.length)) :
    sculpt_batch schema oracle data_list n_workers sp mi completion =
      (data_list.map (fun d => sculpt schema d mi (oracle d))).map some := by
  unfold sculpt_batch
  by_cases hnw : n_workers > 1
  · rw [if_pos hnw]
    exact readOut_writeSlots_eq_map _ data_list completion
      (fun j hj => hc.mem_iff.mpr (List.mem_range.mpr hj))
  · rw [if_neg hnw, seq_loop_eq_map]

/-- C2 witness: two records processed with four workers completing in
reverse order (`completion = [1, 0]`) produce the two per-record results in
input order, identically to the sequential path (`n_workers = 1`). -/
theorem batch_order_preserving_witness :
    ([1, 0] : List Nat).Perm (List.range 2) ∧
    sculpt_batch [] (fun _ => .ok (.obj [("x", .num 1)]))
        [[("a", .str "p")], [("a", .str "q")]] 4 true true [1, 0] =
      ([[("a", JValue.str "p")], [("a", JValue.str "q")]].map
        (fun d => sculpt [] d true (.ok (.obj [("x", .num 1)])))).map some ∧
    sculpt_batch [] (fun _ => .ok (.obj [("x", .num 1)]))
        [[("a", .str "p")], [("a", .str "q")]] 1 true true [1, 0] =
      ([[("a", JValue.str "p")], [("a", JValue.str "q")]].map
        (fun d => sculpt [] d true (.ok (.obj [("x", .num 1)])))).map some :=
  ⟨by decide,
   batch_order_preserving [] (fun _ => .ok (.obj [("x", .num 1)]))
     [[("a", .str "p")], [("a", .str "q")]] 4 true true [1, 0] (by decide),
   batch_order_preserving [] (fun _ => .ok (.obj [("x", .num 1)]))
     [[("a", .str "p")], [("a", .str "q")]] 1 true true [1, 0] (by decide)⟩

end Sculptor
